import Mathlib

/-!
Verification of the tvnow program guide viewer (src/epg.rs) against its
natural-language specification.

The development is a shallow embedding: the Rust code's pure logic is
translated into Lean definitions.  Fallible operations (Rust `unwrap`
panics) are modelled with `Except Panic`; the HTML documents are modelled
by the data the code's CSS selectors extract from them; third-party
library functions that the claims do not depend on (`colored`'s
`.color(..)` tagging and `htmlize`'s `unescape`) are passed as opaque
`String → String` parameters named `col` and `unesc`.
-/

deriving instance DecidableEq for Except

/-- A calendar date, as chrono's `Local` datetimes carry (year, month 1-12,
day 1-..). -/
structure Date where
  year : Int
  month : Nat
  day : Nat
deriving DecidableEq, Repr

/-- A local datetime as used by `WeekTv::init`: chrono's `Local::now()`
restricted to the fields the code reads (`hour()` and the calendar date
used by `format("%Y%m%d")`). -/
structure LocalDT where
  date : Date
  hour : Nat
  minute : Nat
deriving DecidableEq, Repr

/-- Gregorian leap-year rule, as chrono implements it. -/
def isLeap (y : Int) : Bool :=
  Int.emod y 4 == 0 && (Int.emod y 100 != 0 || Int.emod y 400 == 0)

/-- Number of days in a month of a given year. -/
def daysInMonth (y : Int) (m : Nat) : Nat :=
  if m = 2 then (if isLeap y then 29 else 28)
  else if m = 4 ∨ m = 6 ∨ m = 9 ∨ m = 11 then 30
  else 31

/-- The calendar successor of a date: chrono's `datetime + Duration::days(1)`
on a fixed-offset local timeline advances the calendar date by one. -/
def nextDate (d : Date) : Date :=
  if d.day < daysInMonth d.year d.month then { d with day := d.day + 1 }
  else if d.month < 12 then { year := d.year, month := d.month + 1, day := 1 }
  else { year := d.year + 1, month := 1, day := 1 }

/-- The calendar predecessor of a date: chrono's
`datetime + Duration::days(-1)`. -/
def prevDate (d : Date) : Date :=
  if 1 < d.day then { d with day := d.day - 1 }
  else if 1 < d.month then
    { year := d.year, month := d.month - 1,
      day := daysInMonth d.year (d.month - 1) }
  else { year := d.year - 1, month := 12, day := 31 }

/-- Left-pad a numeral with zeros to the given width. -/
def padZero (width : Nat) (s : String) : String :=
  if s.length < width then String.mk (List.replicate (width - s.length) '0') ++ s else s

/-- Two-digit zero-padded numeral (chrono's `%m`, `%d`, `%H`, `%M`). -/
def fmt2 (n : Nat) : String := padZero 2 (toString n)

/-- Four-digit zero-padded numeral (chrono's `%Y` for the year). -/
def fmt4 (n : Nat) : String := padZero 4 (toString n)

/-- chrono's `format("%Y%m%d")` on a date. -/
def formatYMD (d : Date) : String :=
  (if d.year < 0 then "-" ++ fmt4 (-d.year).toNat else fmt4 d.year.toNat)
    ++ fmt2 d.month ++ fmt2 d.day

/-- The constant `TV_GUIDE_START_TIME: u32 = 5` from src/epg.rs. -/
def TV_GUIDE_START_TIME : Nat := 5

/-- The date-generating loop of `WeekTv::init`: emit `%Y%m%d` of the current
datetime, then advance it by one day, `n` times. -/
def weekDatesAux : Nat → LocalDT → List String
  | 0, _ => []
  | n + 1, dt => formatYMD dt.date :: weekDatesAux n { dt with date := nextDate dt.date }

/-- The date-resolution logic of `WeekTv::init` (src/epg.rs lines 136-156):
start from `Local::now()`, step back one day when the hour is before
`TV_GUIDE_START_TIME`, then produce the 8 `broad_cast_date` values used to
build the URLs. -/
def weekTvInitDates (now : LocalDT) : List String :=
  let dt := if now.hour < TV_GUIDE_START_TIME then { now with date := prevDate now.date } else now
  weekDatesAux 8 dt

/-- The "broadcast today" of the specification: the calendar date of
`now - 1 day` when the local hour is before 5, otherwise `now`'s date. -/
def broadcastToday (now : LocalDT) : Date :=
  if now.hour < TV_GUIDE_START_TIME then prevDate now.date else now.date

/-- The list of `n` consecutive calendar dates starting at `d`. -/
def consecDates : Date → Nat → List Date
  | _, 0 => []
  | d, n + 1 => d :: consecDates (nextDate d) n

/-!
## The markup model

The renderers query the fetched HTML through fixed CSS selectors.  An
`EpgDoc` records exactly the data those selectors can return:
`div#ch_area ul li.topmost p` yields the channel name strings
(`channelsRaw`, each later trimmed), and `div#program_area ul` yields one
list of slot elements per channel position (`programArea`); within a `ul`,
`li.sc-current` / `li.sc-future` match the slots whose class set contains
the tag, and each slot `li` carries optional `s`/`e` attributes and an
optional nested `p.program_title` text.
-/

/-- One program-slot `li` element as the selectors see it. -/
structure Li where
  isCurrent : Bool
  isFuture : Bool
  s : Option String
  e : Option String
  title : Option String
deriving DecidableEq, Repr

/-- One fetched schedule page, reduced to the selector results. -/
structure EpgDoc where
  channelsRaw : List String
  programArea : List (List Li)
deriving DecidableEq, Repr

/-- The site of a Rust panic in a renderer: `channels[i]` out of bounds,
`attr(..).unwrap()` on a missing attribute, `str.get(8..10).unwrap()` on a
too-short attribute, or `NaiveDateTime::parse_from_str(..).unwrap()` on an
unparsable timestamp. -/
inductive Panic where
  | index
  | attr
  | slice
  | parse
deriving DecidableEq, Repr

/-- Rust `Vec` indexing `channels[i]`: panics when out of bounds. -/
def idxPanic (xs : List String) (i : Nat) : Except Panic String :=
  match xs.get? i with
  | some x => Except.ok x
  | none => Except.error Panic.index

/-- Rust `Option::unwrap` on an attribute lookup. -/
def attrUnwrap (o : Option String) : Except Panic String :=
  match o with
  | some s => Except.ok s
  | none => Except.error Panic.attr

/-- The characters of `s` at positions `[lo, hi)`. -/
def chars (s : String) (lo hi : Nat) : String :=
  String.mk ((s.toList.drop lo).take (hi - lo))

/-- Character-granularity model of Rust `str::get(lo..hi)`: defined when
`hi` is within the character count.  It coincides with the byte-exact
model `rustStrGet` below whenever the first `hi` characters are
single-byte — in particular on the 12-digit attributes in scope for the
FullDay format claims; `rustStrGet` is the model to use for attributes
containing multi-byte characters. -/
def strSlice (s : String) (lo hi : Nat) : Option String :=
  if hi ≤ s.length then some (chars s lo hi) else none

/-- Drop exactly `n` UTF-8 bytes from the characters: `some` suffix when
byte position `n` is a character boundary at or before the end of the
string, `none` otherwise. -/
def dropBytes : Nat → List Char → Option (List Char)
  | 0, cs => some cs
  | _ + 1, [] => none
  | n + 1, c :: cs =>
    if c.utf8Size ≤ n + 1 then dropBytes (n + 1 - c.utf8Size) cs else none

/-- Take exactly `n` UTF-8 bytes from the characters: `some` prefix when
byte position `n` is a character boundary at or before the end of the
string, `none` otherwise. -/
def takeBytes : Nat → List Char → Option (List Char)
  | 0, _ => some []
  | _ + 1, [] => none
  | n + 1, c :: cs =>
    if c.utf8Size ≤ n + 1 then (takeBytes (n + 1 - c.utf8Size) cs).map (fun l => c :: l)
    else none

/-- Byte-exact model of Rust `str::get(lo..hi)` (for `lo ≤ hi`): slicing is
byte-indexed over the UTF-8 encoding, and returns `some` exactly when both
`lo` and `hi` are character boundaries at or before the end of the string —
an index inside a multi-byte character yields `none` just like an index
past the end. -/
def rustStrGet (s : String) (lo hi : Nat) : Option String :=
  match dropBytes lo s.toList with
  | none => none
  | some rest =>
    match takeBytes (hi - lo) rest with
    | none => none
    | some taken => some (String.mk taken)

/-- Rust `Option::unwrap` on a `str::get` slice. -/
def sliceUnwrap (o : Option String) : Except Panic String :=
  match o with
  | some s => Except.ok s
  | none => Except.error Panic.slice

/-- Rust `str::trim`: drop whitespace from both ends of the string. -/
def rustTrim (s : String) : String :=
  String.mk ((((s.toList.dropWhile Char.isWhitespace).reverse.dropWhile
    Char.isWhitespace).reverse))

/-- The channel list a renderer works with: the selector results trimmed
(`channels.iter().map(|s| s.trim())`). -/
def docChannels (doc : EpgDoc) : List String :=
  doc.channelsRaw.map rustTrim

/-!
## Snapshot rendering (`Tv::print`, `BsTv::print`, `CsTv::print`)

The three snapshot impls are identical up to the color constant, which is
the abstract `col` parameter here.
-/

/-- The loop body of the snapshot renderer (src/epg.rs lines 56-71): for the
`ul` at position `i`, take the first `li.sc-current`; with a title, print the
colored channel and the unescaped title; without one, print nothing; with no
current slot, print the plain channel and the literal fallback message. -/
def tvLoop (col unesc : String → String) (channels : List String) :
    List (List Li) → Nat → Except Panic (List String)
  | [], _ => Except.ok []
  | ul :: rest, i =>
    match ul.find? (fun li => li.isCurrent) with
    | some cur =>
      match cur.title with
      | some t => do
        let ch ← idxPanic channels i
        let more ← tvLoop col unesc channels rest (i + 1)
        Except.ok ((col ch ++ " " ++ unesc t) :: more)
      | none => tvLoop col unesc channels rest (i + 1)
    | none => do
      let ch ← idxPanic channels i
      let more ← tvLoop col unesc channels rest (i + 1)
      Except.ok ((ch ++ " 現在放送していません") :: more)

/-- Function `Tv::print` (also `BsTv::print`, `CsTv::print` with their colors): the
lines written to the output stream, or the panic that aborts rendering. -/
def tvPrint (col unesc : String → String) (doc : EpgDoc) : Except Panic (List String) :=
  tvLoop col unesc (docChannels doc) doc.programArea 0

/-!
## FullDay rendering (`TodayTv::print`, `TodayBsTv::print`, `TodayCsTv::print`)
-/

/-- Rendering of one future slot in the FullDay view (src/epg.rs lines
107-126): unwrap the `s` attribute, slice characters 8..10 and 10..12,
likewise for `e`, and only then look for the title; a slot without a title
yields no line (`Except.ok none`). -/
def renderTodaySlot (unesc : String → String) (li : Li) : Except Panic (Option String) := do
  let s ← attrUnwrap li.s
  let sh ← sliceUnwrap (strSlice s 8 10)
  let sm ← sliceUnwrap (strSlice s 10 12)
  let e ← attrUnwrap li.e
  let eh ← sliceUnwrap (strSlice e 8 10)
  let em ← sliceUnwrap (strSlice e 10 12)
  match li.title with
  | some t =>
    Except.ok (some (sh ++ ":" ++ sm ++ " ~ " ++ eh ++ ":" ++ em ++ " " ++ unesc t))
  | none => Except.ok none

/-- Rendering of one future slot in the FullDay view with Rust's
`str::get` modelled byte-exactly (src/epg.rs lines 107-126, same structure
as `renderTodaySlot` with `rustStrGet` in place of the character-granularity
`strSlice`): this is the renderer to reason about when the attributes may
contain multi-byte characters. -/
def renderTodaySlotBytes (unesc : String → String) (li : Li) : Except Panic (Option String) := do
  let s ← attrUnwrap li.s
  let sh ← sliceUnwrap (rustStrGet s 8 10)
  let sm ← sliceUnwrap (rustStrGet s 10 12)
  let e ← attrUnwrap li.e
  let eh ← sliceUnwrap (rustStrGet e 8 10)
  let em ← sliceUnwrap (rustStrGet e 10 12)
  match li.title with
  | some t =>
    Except.ok (some (sh ++ ":" ++ sm ++ " ~ " ++ eh ++ ":" ++ em ++ " " ++ unesc t))
  | none => Except.ok none

/-- Render every slot of a filtered `li.sc-future` list in order. -/
def renderTodaySlots (unesc : String → String) : List Li → Except Panic (List String)
  | [] => Except.ok []
  | li :: rest => do
    let line? ← renderTodaySlot unesc li
    let lines ← renderTodaySlots unesc rest
    Except.ok (match line? with | some l => l :: lines | none => lines)

/-- The loop body of the FullDay renderer (src/epg.rs lines 105-127): write
the colored channel header, then the lines of its future slots. -/
def todayLoop (col unesc : String → String) (channels : List String) :
    List (List Li) → Nat → Except Panic (List String)
  | [], _ => Except.ok []
  | ul :: rest, i => do
    let ch ← idxPanic channels i
    let slotLines ← renderTodaySlots unesc (ul.filter (fun li => li.isFuture))
    let more ← todayLoop col unesc channels rest (i + 1)
    Except.ok (col ch :: (slotLines ++ more))

/-- Function `TodayTv::print` (also the BS/CS variants with their colors). -/
def todayTvPrint (col unesc : String → String) (doc : EpgDoc) : Except Panic (List String) :=
  todayLoop col unesc (docChannels doc) doc.programArea 0

/-!
## Weekly rendering (`WeekTv::print`, `WeekBsTv::print`, `WeekCsTv::print`)
-/

/-- The Unicode White_Space code points, which Rust's `char::is_whitespace`
recognizes and chrono's per-field `trim_start` strips. -/
def isRustWhitespace (c : Char) : Bool :=
  (0x9 ≤ c.toNat && c.toNat ≤ 0xD) || c.toNat = 0x20 || c.toNat = 0x85 ||
  c.toNat = 0xA0 || c.toNat = 0x1680 ||
  (0x2000 ≤ c.toNat && c.toNat ≤ 0x200A) ||
  c.toNat = 0x2028 || c.toNat = 0x2029 || c.toNat = 0x202F || c.toNat = 0x205F ||
  c.toNat = 0x3000

/-- Greedy scan of at most `maxw` further ASCII digits, accumulating the
value; stops at the first non-digit. -/
def scanNumAux : Nat → Nat → List Char → Nat × List Char
  | 0, acc, cs => (acc, cs)
  | _ + 1, acc, [] => (acc, [])
  | maxw + 1, acc, c :: cs =>
    if c.isDigit then scanNumAux maxw (acc * 10 + (c.toNat - Char.toNat '0')) cs
    else (acc, c :: cs)

/-- chrono's `scan::number`: between 1 and `maxw` leading ASCII digits,
consumed greedily. -/
def scanNum (maxw : Nat) (cs : List Char) : Option (Nat × List Char) :=
  match cs with
  | c :: _ => if c.isDigit then some (scanNumAux maxw 0 cs) else none
  | [] => none

/-- chrono's parsing of one unsigned numeric field of maximal width `maxw`
(`%m`, `%d`, `%H`, `%M` have width 2): leading whitespace is trimmed, then
1 to `maxw` digits are consumed greedily. -/
def parseField (maxw : Nat) (cs : List Char) : Option (Nat × List Char) :=
  scanNum maxw (cs.dropWhile isRustWhitespace)

/-- chrono's parsing of the signed `%Y` field: leading whitespace is
trimmed; an explicit sign admits unboundedly many digits, otherwise at
most 4 are consumed. -/
def parseYearField (cs : List Char) : Option (Int × List Char) :=
  let cs := cs.dropWhile isRustWhitespace
  match cs with
  | '+' :: rest => (scanNum rest.length rest).map (fun p => (Int.ofNat p.1, p.2))
  | '-' :: rest => (scanNum rest.length rest).map (fun p => (-(Int.ofNat p.1 : Int), p.2))
  | _ => (scanNum 4 cs).map (fun p => (Int.ofNat p.1, p.2))

/-- chrono's `NaiveDateTime::parse_from_str(s, "%Y%m%d%H%M")`: five numeric
fields in sequence — the signed year (at most 4 digits unless an explicit
sign is given), then month, day, hour and minute of width 2 — each field
trimming leading whitespace and scanning digits greedily; the whole string
must be consumed, and the fields must form a valid calendar datetime in
NaiveDate's representable year range. -/
def parseYmdHm (str : String) : Option LocalDT :=
  match parseYearField str.toList with
  | none => none
  | some (y, cs1) =>
    match parseField 2 cs1 with
    | none => none
    | some (m, cs2) =>
      match parseField 2 cs2 with
      | none => none
      | some (d, cs3) =>
        match parseField 2 cs3 with
        | none => none
        | some (hh, cs4) =>
          match parseField 2 cs4 with
          | none => none
          | some (mm, cs5) =>
            if cs5 = [] ∧ -262144 ≤ y ∧ y ≤ 262143 ∧
                1 ≤ m ∧ m ≤ 12 ∧ 1 ≤ d ∧ d ≤ daysInMonth y m ∧ hh < 24 ∧ mm < 60 then
              some { date := { year := y, month := m, day := d }, hour := hh, minute := mm }
            else none

/-- Rust `Result::unwrap` on the chrono parse. -/
def parseUnwrap (o : Option LocalDT) : Except Panic LocalDT :=
  match o with
  | some x => Except.ok x
  | none => Except.error Panic.parse

/-- Days since 1970-01-01 of a civil date (the standard era-based
conversion, with floor division). -/
def daysFromCivil (dt : Date) : Int :=
  let y := if dt.month ≤ 2 then dt.year - 1 else dt.year
  let era := Int.fdiv y 400
  let yoe := y - era * 400
  let mp : Nat := if 2 < dt.month then dt.month - 3 else dt.month + 9
  let doy : Int := Int.ofNat ((153 * mp + 2) / 5 + dt.day - 1)
  let doe := yoe * 365 + Int.fdiv yoe 4 - Int.fdiv yoe 100 + doy
  era * 146097 + doe - 719468

/-- chrono's `%a`: locale-independent English weekday abbreviation. -/
def weekdayAbbrev (d : Date) : String :=
  match (Int.emod (daysFromCivil d + 4) 7).toNat with
  | 0 => "Sun"
  | 1 => "Mon"
  | 2 => "Tue"
  | 3 => "Wed"
  | 4 => "Thu"
  | 5 => "Fri"
  | 6 => "Sat"
  | _ => ""

/-- chrono's `format("%a %R")` on a parsed datetime. -/
def fmtWeekdayHM (dt : LocalDT) : String :=
  weekdayAbbrev dt.date ++ " " ++ fmt2 dt.hour ++ ":" ++ fmt2 dt.minute

/-- Rendering of one future slot in the Weekly view (src/epg.rs lines
176-191): unwrap both attributes, parse both timestamps, and only then look
for the title; `channels[i]` is read only when a title is present. -/
def renderWeekSlot (unesc : String → String) (channels : List String) (i : Nat)
    (li : Li) : Except Panic (Option String) := do
  let s ← attrUnwrap li.s
  let e ← attrUnwrap li.e
  let sdt ← parseUnwrap (parseYmdHm s)
  let edt ← parseUnwrap (parseYmdHm e)
  match li.title with
  | some t => do
    let ch ← idxPanic channels i
    Except.ok (some (ch ++ " " ++ fmtWeekdayHM sdt ++ " ~ " ++ fmtWeekdayHM edt ++ " " ++ unesc t))
  | none => Except.ok none

/-- Render every slot of a filtered `li.sc-future` list in order. -/
def renderWeekSlots (unesc : String → String) (channels : List String) (i : Nat) :
    List Li → Except Panic (List String)
  | [] => Except.ok []
  | li :: rest => do
    let line? ← renderWeekSlot unesc channels i li
    let lines ← renderWeekSlots unesc channels i rest
    Except.ok (match line? with | some l => l :: lines | none => lines)

/-- The per-document loop of the Weekly renderer (src/epg.rs lines 174-193):
no channel header lines, one line per future slot with a title. -/
def weekLoop (unesc : String → String) (channels : List String) :
    List (List Li) → Nat → Except Panic (List String)
  | [], _ => Except.ok []
  | ul :: rest, i => do
    let slotLines ← renderWeekSlots unesc channels i (ul.filter (fun li => li.isFuture))
    let more ← weekLoop unesc channels rest (i + 1)
    Except.ok (slotLines ++ more)

/-- One document of `WeekTv::print`. -/
def weekDocPrint (unesc : String → String) (doc : EpgDoc) : Except Panic (List String) :=
  weekLoop unesc (docChannels doc) doc.programArea 0

/-- Function `WeekTv::print` over the 8 fetched documents in order. -/
def weekTvPrint (unesc : String → String) : List EpgDoc → Except Panic (List String)
  | [] => Except.ok []
  | doc :: rest => do
    let lines ← weekDocPrint unesc doc
    let more ← weekTvPrint unesc rest
    Except.ok (lines ++ more)

/-!
## The concurrent batch fetch (`multiple_requests`, `async_get_htmls`)

Each spawned task computes `get_response_body_string(url)`; the network is
modelled by an oracle `fetch : String → Except String String` giving every
URL its response body or error.  The scheduler is modelled by a completion
log: the list of `(task index, task result)` pairs in the order the tasks
happened to finish.  `handle.await` retrieves a task's entry from the log
by its index, so the awaiting loop of `multiple_requests` reads the log in
spawn order, whatever the completion order was.
-/

/-- The denotation of `multiple_requests` (src/epg.rs lines 560-574): one
result per URL, in input order. -/
def multiple_requests (fetch : String → Except String String) (urls : List String) :
    List (Except String String) :=
  urls.map fetch

/-- Awaiting the handle of task `i` against a completion log. -/
def awaitTask (log : List (Nat × Except String String)) (i : Nat) :
    Option (Except String String) :=
  (log.find? (fun p => p.1 == i)).map Prod.snd

/-- The awaiting loop of `multiple_requests`: await the handles in spawn
order; `none` only if the log lost a task (an invalid schedule). -/
def awaitAll (log : List (Nat × Except String String)) :
    List Nat → Option (List (Except String String))
  | [] => some []
  | i :: rest =>
    match awaitTask log i, awaitAll log rest with
    | some r, some rs => some (r :: rs)
    | _, _ => none

/-- Running the whole batch against a completion log: the tasks are spawned
for positions `0..urls.length` and awaited in that order. -/
def runBatch (log : List (Nat × Except String String)) (urls : List String) :
    Option (List (Except String String)) :=
  awaitAll log (List.range urls.length)

/-- A completion log is valid for `fetch` and `urls` when every spawned task
is recorded with the result of fetching its own URL — this holds in any
completion order. -/
def ValidLog (fetch : String → Except String String) (urls : List String)
    (log : List (Nat × Except String String)) : Prop :=
  ∀ i, i < urls.length → awaitTask log i = some (fetch (urls.getD i ""))

/-- Rust's `collect::<Result<Vec<_>>>()`: all values, or the first error in
iteration order. -/
def collectResult {α : Type} : List (Except String α) → Except String (List α)
  | [] => Except.ok []
  | Except.error e :: _ => Except.error e
  | Except.ok a :: rest =>
    match collectResult rest with
    | Except.error e => Except.error e
    | Except.ok as => Except.ok (a :: as)

/-- The body of a successful fetch result, if any. -/
def okBody : Except String String → Option String
  | Except.ok b => some b
  | Except.error _ => none

/-- The aggregation step of `async_get_htmls`: the `collect` into a single
`Result` followed by parsing every body. -/
def aggregate (parse : String → EpgDoc) (results : List (Except String String)) :
    Except String (List EpgDoc) :=
  match collectResult results with
  | Except.error e => Except.error e
  | Except.ok bodies => Except.ok (bodies.map parse)

/-- Function `async_get_htmls` (src/epg.rs lines 576-584): run the batch,
fail on the first error, otherwise parse every body.  `Html::parse_document`
never fails, so it is an abstract total `parse` function. -/
def async_get_htmls (fetch : String → Except String String) (parse : String → EpgDoc)
    (urls : List String) : Except String (List EpgDoc) :=
  aggregate parse (multiple_requests fetch urls)

/-- Function `async_get_htmls` run against an explicit completion log
instead of the denotation of `multiple_requests`. -/
def asyncGetHtmlsRun (log : List (Nat × Except String String))
    (parse : String → EpgDoc) (urls : List String) :
    Option (Except String (List EpgDoc)) :=
  (runBatch log urls).map (aggregate parse)

/-!
## Specification-side rendering for the FullDay view

The next two definitions follow the specification's words for §4.4
FullDay ("for each channel, write a header line with the color-tagged
channel name, then one line per future slot as `HH:MM ~ HH:MM <title>`,
using ... the digits taken directly from the 12-digit timestamp's
hour/minute positions.  Channels with no future slots still get their
header line"); they are compared with the embedding `todayTvPrint`.
-/

/-- Specification line for one future slot: hour and minute digits taken
directly from character positions 8-10 and 10-12 of the start and end
attributes; slots without a title yield no line. -/
def todaySpecSlotLine (unesc : String → String) (li : Li) : Option String :=
  match li.s, li.e, li.title with
  | some s, some e, some t =>
    some (chars s 8 10 ++ ":" ++ chars s 10 12 ++ " ~ "
      ++ chars e 8 10 ++ ":" ++ chars e 10 12 ++ " " ++ unesc t)
  | _, _, _ => none

/-- Specification-side FullDay rendering: per channel, a header line then
the lines of its future slots. -/
def todaySpecRender (col unesc : String → String) (doc : EpgDoc) : List String :=
  (((docChannels doc).zip doc.programArea).map
    (fun p => col p.1 :: ((p.2.filter (fun li => li.isFuture)).filterMap (todaySpecSlotLine unesc)))).flatten

/-- An attribute is long enough for the FullDay slicing: present with at
least 12 characters. -/
def attrOk (o : Option String) : Bool :=
  match o with
  | some s => decide (12 ≤ s.length)
  | none => false

/-!
## Concrete fixtures used by the witnesses and counterexamples
-/

/-- A fetch oracle where every URL succeeds. -/
def wFetchOk : String → Except String String := fun u => Except.ok ("B" ++ u)

/-- Three URLs for the order-preservation witness. -/
def wUrls3 : List String := ["u1", "u2", "u3"]

/-- A completion log for `wUrls3` in which the last-spawned task finished
first. -/
def wLog3 : List (Nat × Except String String) :=
  [(2, Except.ok "Bu3"), (0, Except.ok "Bu1"), (1, Except.ok "Bu2")]

/-- A fetch oracle failing on two URLs. -/
def wFetchFail : String → Except String String := fun u =>
  if u = "b" then Except.error "EB" else if u = "c" then Except.error "EC" else Except.ok u

/-- Four URLs for the first-error witness. -/
def wUrls4 : List String := ["a", "b", "c", "d"]

/-- A completion log for `wUrls4` and `wFetchFail` in which the failure of
URL "c" completed before the failure of URL "b". -/
def wLog4 : List (Nat × Except String String) :=
  [(2, Except.error "EC"), (3, Except.ok "d"), (0, Except.ok "a"), (1, Except.error "EB")]

/-- A trivial parse function for the fetch fixtures. -/
def wParse : String → EpgDoc := fun _ => { channelsRaw := [], programArea := [] }

/-- One channel whose slot list has no current slot. -/
def wDocC6 : EpgDoc := { channelsRaw := ["NHK"], programArea := [[]] }

/-- A current-tagged slot with no nested title element. -/
def wCurUntitled : Li :=
  { isCurrent := true, isFuture := false, s := none, e := none, title := none }

/-- One channel whose only current slot has no title. -/
def wDocC9 : EpgDoc := { channelsRaw := ["X"], programArea := [[wCurUntitled]] }

/-- Two channels but only one slot list: the alignment mismatch. -/
def wDocC7 : EpgDoc := { channelsRaw := ["A", "B"], programArea := [[]] }

/-- A future slot with well-formed attributes but no title. -/
def wSlotNoTitle : Li :=
  { isCurrent := false, isFuture := true,
    s := some "202401100930", e := some "202401101000", title := none }

/-- A future slot with a title but no attributes. -/
def wSlotNoAttr : Li :=
  { isCurrent := false, isFuture := true, s := none, e := none, title := some "T" }

/-- A future slot whose 12-character attributes are not digits at all. -/
def wSlotGarbage : Li :=
  { isCurrent := false, isFuture := true,
    s := some "ABCDEFGHIJKL", e := some "abcdefghijkl", title := some "T" }

/-- A future slot whose start attribute is too short to slice. -/
def wSlotShort : Li :=
  { isCurrent := false, isFuture := true,
    s := some "2024", e := some "202401101000", title := some "T" }

/-- A future slot with a valid start but an unparsable end timestamp. -/
def wSlotBadEnd : Li :=
  { isCurrent := false, isFuture := true,
    s := some "202401100930", e := some "ABCDEFGHIJKL", title := some "T" }

/-- A future slot whose attributes are six two-byte characters: 12 bytes,
so every byte slice at 8..10 and 10..12 lands on character boundaries. -/
def wSlotAlpha : Li :=
  { isCurrent := false, isFuture := true,
    s := some "αααααα", e := some "αααααα", title := some "T" }

/-- A future slot whose 12-character start attribute puts byte position 8
in the middle of the two-byte character α. -/
def wSlotMidChar : Li :=
  { isCurrent := false, isFuture := true,
    s := some "1234567α1234", e := some "202401101000", title := some "T" }

/-- A future slot 09:30-10:00 titled News, the specification's FullDay
golden example. -/
def wSlotNews : Li :=
  { isCurrent := false, isFuture := true,
    s := some "202401100930", e := some "202401101000", title := some "News" }

/-- The FullDay golden-example document of the specification: one channel
(whitespace around the name), one future slot 09:30-10:00 titled News. -/
def wDocC5 : EpgDoc :=
  { channelsRaw := [" News Ch "], programArea := [[wSlotNews]] }

/-- A document whose only future slot lacks a title. -/
def wDocC4 : EpgDoc := { channelsRaw := ["CH"], programArea := [[wSlotNoTitle]] }

/-- A document whose only future slot carries non-numeric 12-character
timestamps. -/
def wDocC8 : EpgDoc := { channelsRaw := ["CH"], programArea := [[wSlotGarbage]] }

/-!
## Helper lemmas
-/

/-- Bind on a success passes the value on. -/
theorem except_bind_ok {ε α β : Type} (a : α) (f : α → Except ε β) :
    (Except.ok a : Except ε α) >>= f = f a := rfl

/-- Bind on an error short-circuits. -/
theorem except_bind_error {ε α β : Type} (e : ε) (f : α → Except ε β) :
    (Except.error e : Except ε α) >>= f = Except.error e := rfl

/-- Within bounds, `get?` returns the `getD` value. -/
theorem get?_eq_getD {α : Type} (d : α) :
    ∀ (l : List α) (i : Nat), i < l.length → l.get? i = some (l.getD i d)
  | _ :: _, 0, _ => rfl
  | _ :: l, i + 1, h => get?_eq_getD d l i (Nat.lt_of_succ_lt_succ h)

/-- In-bounds indexing does not panic and yields the `getD` value. -/
theorem idxPanic_ok (l : List String) (i : Nat) (h : i < l.length) :
    idxPanic l i = Except.ok (l.getD i "") := by
  unfold idxPanic
  rw [get?_eq_getD "" l i h]

/-- Awaiting a list of task indices whose log entries are all present
yields exactly their recorded results, in index-list order. -/
theorem awaitAll_eq_map (log : List (Nat × Except String String))
    (g : Nat → Except String String) :
    ∀ ixs : List Nat, (∀ i ∈ ixs, awaitTask log i = some (g i)) →
      awaitAll log ixs = some (ixs.map g)
  | [], _ => rfl
  | i :: rest, h => by
    have h1 : awaitTask log i = some (g i) := h i (List.mem_cons_self i rest)
    have h2 := awaitAll_eq_map log g rest (fun j hj => h j (List.mem_cons_of_mem i hj))
    simp [awaitAll, h1, h2]

/-- Reading a list through `range`-indexed `getD` is just mapping it. -/
theorem range_map_getD {α β : Type} (f : α → β) (d : α) :
    ∀ l : List α, (List.range l.length).map (fun i => f (l.getD i d)) = l.map f
  | [] => rfl
  | a :: l => by
    rw [List.length_cons, List.range_succ_eq_map, List.map_cons, List.map_map]
    simp only [List.getD_cons_zero, List.getD_cons_succ, Function.comp_def]
    rw [range_map_getD f d l, List.map_cons]

/-- Against any valid completion log, the batch run yields the denotation
of `multiple_requests`. -/
theorem runBatch_valid (fetch : String → Except String String) (urls : List String)
    (log : List (Nat × Except String String)) (h : ValidLog fetch urls log) :
    runBatch log urls = some (multiple_requests fetch urls) := by
  unfold runBatch multiple_requests
  rw [awaitAll_eq_map log (fun i => fetch (urls.getD i "")) (List.range urls.length)
    (fun i hi => h i (List.mem_range.mp hi)), range_map_getD]

/-- Collecting a list of successes succeeds with the values. -/
theorem collectResult_map_ok {α : Type} :
    ∀ bs : List α, collectResult (bs.map Except.ok) = Except.ok bs
  | [] => rfl
  | b :: bs => by simp [collectResult, collectResult_map_ok bs]

/-- When every fetch succeeds, the collect step yields all bodies in
order. -/
theorem collect_map_all_ok (fetch : String → Except String String) :
    ∀ urls : List String, (∀ u ∈ urls, ∃ b, fetch u = Except.ok b) →
      collectResult (urls.map fetch)
        = Except.ok (urls.map (fun u => (okBody (fetch u)).getD ""))
  | [], _ => rfl
  | u :: urls, h => by
    obtain ⟨b, hb⟩ := h u (List.mem_cons_self u urls)
    have ih := collect_map_all_ok fetch urls (fun v hv => h v (List.mem_cons_of_mem u hv))
    simp [collectResult, hb, ih, okBody]

/-- When some fetch fails, the collect step fails with the error of a
failing URL. -/
theorem collect_map_exists_error (fetch : String → Except String String) :
    ∀ urls : List String, (∃ u ∈ urls, ∃ e, fetch u = Except.error e) →
      ∃ u e, u ∈ urls ∧ fetch u = Except.error e ∧
        collectResult (urls.map fetch) = Except.error e
  | [], h => absurd h (by simp)
  | u :: urls, h => by
    cases hu : fetch u with
    | error e => exact ⟨u, e, List.mem_cons_self u urls, hu, by simp [collectResult, hu]⟩
    | ok b =>
      have hrest : ∃ v ∈ urls, ∃ e, fetch v = Except.error e := by
        obtain ⟨v, hv, e, he⟩ := h
        rcases List.mem_cons.mp hv with rfl | hv'
        · rw [hu] at he; cases he
        · exact ⟨v, hv', e, he⟩
      obtain ⟨v, e, hv, he, hc⟩ := collect_map_exists_error fetch urls hrest
      exact ⟨v, e, List.mem_cons_of_mem u hv, he, by simp [collectResult, hu, hc]⟩

/-- The collect step returns the error of the first failing position. -/
theorem collect_first_error {α : Type} :
    ∀ (l : List (Except String α)) (i : Nat) (e : String),
      l.get? i = some (Except.error e) →
      (∀ j, j < i → ∃ b, l.get? j = some (Except.ok b)) →
      collectResult l = Except.error e
  | [], i, e, hi, _ => by simp at hi
  | x :: l, 0, e, hi, _ => by
    simp at hi
    rw [hi]
    rfl
  | x :: l, i + 1, e, hi, hj => by
    obtain ⟨b, hb⟩ := hj 0 (Nat.succ_pos i)
    simp at hb
    have ih := collect_first_error l i e hi
      (fun j hjlt => by
        obtain ⟨b', hb'⟩ := hj (j + 1) (Nat.succ_lt_succ hjlt)
        exact ⟨b', hb'⟩)
    rw [hb]
    simp [collectResult, ih]

/-- A slot with long-enough attributes renders in the FullDay view exactly
as the specification-side line (or is skipped when untitled). -/
theorem renderTodaySlot_ok (unesc : String → String) (li : Li)
    (hs : attrOk li.s = true) (he : attrOk li.e = true) :
    renderTodaySlot unesc li = Except.ok (todaySpecSlotLine unesc li) := by
  match hsv : li.s, hev : li.e with
  | some s, some e =>
    rw [hsv] at hs
    rw [hev] at he
    simp only [attrOk, decide_eq_true_eq] at hs he
    have h1 : strSlice s 8 10 = some (chars s 8 10) := by
      simp [strSlice]; omega
    have h2 : strSlice s 10 12 = some (chars s 10 12) := by
      simp [strSlice]; omega
    have h3 : strSlice e 8 10 = some (chars e 8 10) := by
      simp [strSlice]; omega
    have h4 : strSlice e 10 12 = some (chars e 10 12) := by
      simp [strSlice]; omega
    cases htit : li.title with
    | none =>
      simp [renderTodaySlot, todaySpecSlotLine, hsv, hev, htit, attrUnwrap, sliceUnwrap,
        h1, h2, h3, h4, except_bind_ok]
    | some t =>
      simp [renderTodaySlot, todaySpecSlotLine, hsv, hev, htit, attrUnwrap, sliceUnwrap,
        h1, h2, h3, h4, except_bind_ok]
  | some s, none => rw [hev] at he; simp [attrOk] at he
  | none, _ => rw [hsv] at hs; simp [attrOk] at hs

/-- A list of slots with long-enough attributes renders as the filterMap of
the specification-side lines. -/
theorem renderTodaySlots_ok (unesc : String → String) :
    ∀ lis : List Li, (∀ li ∈ lis, attrOk li.s = true ∧ attrOk li.e = true) →
      renderTodaySlots unesc lis = Except.ok (lis.filterMap (todaySpecSlotLine unesc))
  | [], _ => rfl
  | li :: rest, h => by
    obtain ⟨hs, he⟩ := h li (List.mem_cons_self li rest)
    have h1 := renderTodaySlot_ok unesc li hs he
    have h2 := renderTodaySlots_ok unesc rest (fun x hx => h x (List.mem_cons_of_mem li hx))
    cases hline : todaySpecSlotLine unesc li with
    | none =>
      simp [renderTodaySlots, h1, h2, hline, List.filterMap_cons, except_bind_ok]
    | some l =>
      simp [renderTodaySlots, h1, h2, hline, List.filterMap_cons, except_bind_ok]

/-- In bounds, dropping `i` elements exposes the `i`-th element first. -/
theorem drop_eq_getD_cons :
    ∀ (l : List String) (i : Nat), i < l.length → l.drop i = l.getD i "" :: l.drop (i + 1)
  | _ :: _, 0, _ => rfl
  | _ :: l, i + 1, h => drop_eq_getD_cons l i (Nat.lt_of_succ_lt_succ h)

/-- The FullDay loop is the specification-side rendering of the zip of the
remaining channels with the remaining slot lists, provided the counts
agree and every future slot's attributes are long enough. -/
theorem todayLoop_ok (col unesc : String → String) (channels : List String) :
    ∀ (uls : List (List Li)) (i : Nat), i + uls.length = channels.length →
      (∀ ul ∈ uls, ∀ li ∈ ul, li.isFuture = true → attrOk li.s = true ∧ attrOk li.e = true) →
      todayLoop col unesc channels uls i =
        Except.ok ((((channels.drop i).zip uls).map
          (fun p => col p.1 :: ((p.2.filter (fun li => li.isFuture)).filterMap
            (todaySpecSlotLine unesc)))).flatten)
  | [], i, hlen, _ => by
    simp [todayLoop]
  | ul :: rest, i, hlen, h => by
    simp only [List.length_cons] at hlen
    have hi : i < channels.length := by omega
    have hslots : ∀ li ∈ ul.filter (fun li => li.isFuture),
        attrOk li.s = true ∧ attrOk li.e = true := by
      intro li hli
      obtain ⟨hmem, hfut⟩ := List.mem_filter.mp hli
      exact h ul (List.mem_cons_self ul rest) li hmem hfut
    have h1 := renderTodaySlots_ok unesc (ul.filter (fun li => li.isFuture)) hslots
    have h2 := todayLoop_ok col unesc channels rest (i + 1) (by omega)
      (fun u hu li hli hf => h u (List.mem_cons_of_mem ul hu) li hli hf)
    rw [drop_eq_getD_cons channels i hi]
    simp [todayLoop, idxPanic_ok channels i hi, h1, h2, except_bind_ok,
      List.zip_cons_cons, List.flatten_cons]

/-!
## Claim theorems
-/

/-- C1: for every local timestamp `now`, the weekly view's date resolution
produces exactly 8 consecutive calendar dates formatted as YYYYMMDD,
starting from the broadcast today — the calendar date of `now - 1 day`
when `now`'s local hour is strictly below 5, otherwise `now`'s calendar
date; in particular 2024-01-10T04:30 starts at 20240109 and
2024-01-10T05:00 starts at 20240110. -/
theorem weekTv_broadcast_dates (now : LocalDT) :
    weekTvInitDates now = (consecDates (broadcastToday now) 8).map formatYMD ∧
    (weekTvInitDates now).length = 8 ∧
    (weekTvInitDates now).head? = some (formatYMD (broadcastToday now)) ∧
    (weekTvInitDates { date := { year := 2024, month := 1, day := 10 }, hour := 4, minute := 30 }).head?
      = some "20240109" ∧
    (weekTvInitDates { date := { year := 2024, month := 1, day := 10 }, hour := 5, minute := 0 }).head?
      = some "20240110" := by
  refine ⟨?_, ?_, ?_, by decide, by decide⟩ <;>
  · simp only [weekTvInitDates, broadcastToday]
    split <;> simp [weekDatesAux, consecDates]

/-- C2: against every valid completion log — i.e. regardless of the order
in which the concurrent requests completed — the batch fetch returns one
result per input URL, and the result at position `i` is the result of
fetching the URL at position `i`. -/
theorem multiple_requests_preserve_order (fetch : String → Except String String)
    (urls : List String) (log : List (Nat × Except String String))
    (h : ValidLog fetch urls log) :
    runBatch log urls = some (multiple_requests fetch urls) ∧
    (multiple_requests fetch urls).length = urls.length ∧
    ∀ i, i < urls.length →
      (multiple_requests fetch urls).get? i = some (fetch (urls.getD i "")) := by
  refine ⟨runBatch_valid fetch urls log h, List.length_map urls fetch, ?_⟩
  intro i hi
  unfold multiple_requests
  rw [List.get?_map, get?_eq_getD "" urls i hi]
  rfl

/-- Witness for C2 at a three-URL batch whose completion log is out of
order (task 2 finished first). -/
theorem multiple_requests_preserve_order_witness :
    runBatch wLog3 wUrls3 = some [Except.ok "Bu1", Except.ok "Bu2", Except.ok "Bu3"] ∧
    (multiple_requests wFetchOk wUrls3).get? 1 = some (Except.ok "Bu2") := by
  have h := multiple_requests_preserve_order wFetchOk wUrls3 wLog3
    (fun i hi => by
      have h3 : i < 3 := by simpa [wUrls3] using hi
      interval_cases i <;> rfl)
  exact ⟨h.1.trans (by rfl), (h.2.2 1 (by decide)).trans (by rfl)⟩

/-- C3: if at least one request of a batch fails, the whole batch is a
single failure carrying a failing request's error and no documents are
produced; if every request succeeds, the batch yields exactly one parsed
document per URL, in order. -/
theorem async_get_htmls_fail_fast (fetch : String → Except String String)
    (parse : String → EpgDoc) (urls : List String) :
    ((∃ u ∈ urls, ∃ e, fetch u = Except.error e) →
      ∃ u e, u ∈ urls ∧ fetch u = Except.error e ∧
        async_get_htmls fetch parse urls = Except.error e) ∧
    ((∀ u ∈ urls, ∃ b, fetch u = Except.ok b) →
      async_get_htmls fetch parse urls
        = Except.ok (urls.map (fun u => parse ((okBody (fetch u)).getD ""))) ∧
      (urls.map (fun u => parse ((okBody (fetch u)).getD ""))).length = urls.length) := by
  constructor
  · intro hfail
    obtain ⟨u, e, hu, he, hc⟩ := collect_map_exists_error fetch urls hfail
    exact ⟨u, e, hu, he, by simp [async_get_htmls, aggregate, multiple_requests, hc]⟩
  · intro hok
    have hc := collect_map_all_ok fetch urls hok
    constructor
    · simp [async_get_htmls, aggregate, multiple_requests, hc, List.map_map, Function.comp_def]
    · simp

/-- Witness for C3: a four-URL batch with failures yields a single error
and no documents; a three-URL batch of successes yields one document per
URL. -/
theorem async_get_htmls_fail_fast_witness :
    (∃ u e, u ∈ wUrls4 ∧ wFetchFail u = Except.error e ∧
      async_get_htmls wFetchFail wParse wUrls4 = Except.error e) ∧
    async_get_htmls wFetchOk wParse wUrls3
      = Except.ok (wUrls3.map (fun u => wParse ((okBody (wFetchOk u)).getD ""))) := by
  refine ⟨(async_get_htmls_fail_fast wFetchFail wParse wUrls4).1
      ⟨"b", by decide, "EB", rfl⟩,
    ((async_get_htmls_fail_fast wFetchOk wParse wUrls3).2 ?_).1⟩
  intro u hu
  fin_cases hu <;> exact ⟨_, rfl⟩

/-- C10: when several requests of a batch fail, the error reported for the
whole batch is the error of the failing URL that is earliest in the input
order, for every valid completion log — i.e. independent of the order in
which the failures completed. -/
theorem batch_error_first_in_input_order (fetch : String → Except String String)
    (parse : String → EpgDoc) (urls : List String)
    (log : List (Nat × Except String String)) (h : ValidLog fetch urls log)
    (i : Nat) (e : String) (hi : i < urls.length)
    (hfail : fetch (urls.getD i "") = Except.error e)
    (hfirst : ∀ j, j < i → ∃ b, fetch (urls.getD j "") = Except.ok b) :
    asyncGetHtmlsRun log parse urls = some (Except.error e) := by
  have hc : collectResult (multiple_requests fetch urls) = Except.error e := by
    apply collect_first_error (multiple_requests fetch urls) i e
    · unfold multiple_requests
      rw [List.get?_map, get?_eq_getD "" urls i hi]
      simpa using hfail
    · intro j hj
      obtain ⟨b, hb⟩ := hfirst j hj
      refine ⟨b, ?_⟩
      unfold multiple_requests
      rw [List.get?_map, get?_eq_getD "" urls j (Nat.lt_trans hj hi)]
      simpa using hb
  rw [asyncGetHtmlsRun, runBatch_valid fetch urls log h]
  simp [aggregate, hc]

/-- Witness for C10: in a batch where URLs at positions 1 and 2 both fail
and the position-2 failure completed first, the reported error is still
the position-1 error. -/
theorem batch_error_first_in_input_order_witness :
    asyncGetHtmlsRun wLog4 wParse wUrls4 = some (Except.error "EB") :=
  batch_error_first_in_input_order wFetchFail wParse wUrls4 wLog4
    (fun i hi => by
      have h4 : i < 4 := by simpa [wUrls4] using hi
      interval_cases i <;> rfl)
    1 "EB" (by decide) rfl
    (fun j hj => by interval_cases j; exact ⟨"a", rfl⟩)

/-- C6: in the snapshot view, a channel whose slot list contains no
current-tagged slot contributes exactly the line
`<channel> 現在放送していません` — the plain (uncolored) channel name, a
space, and the literal localized message. -/
theorem snapshot_fallback_line (col unesc : String → String) (channels : List String)
    (ul : List Li) (rest : List (List Li)) (i : Nat) (ch : String)
    (hcur : ul.find? (fun li => li.isCurrent) = none)
    (hch : channels.get? i = some ch) :
    tvLoop col unesc channels (ul :: rest) i =
      (tvLoop col unesc channels rest (i + 1)).map
        (fun ls => (ch ++ " 現在放送していません") :: ls) := by
  simp only [tvLoop, hcur, idxPanic, hch]
  cases tvLoop col unesc channels rest (i + 1) <;> rfl

/-- Witness for C6: a one-channel document with an empty slot list renders
as exactly the fallback line. -/
theorem snapshot_fallback_line_witness :
    tvPrint (fun x => x) (fun x => x) wDocC6 = Except.ok ["NHK 現在放送していません"] := by
  have h := snapshot_fallback_line (fun x => x) (fun x => x) ["NHK"] [] [] 0 "NHK" rfl rfl
  calc tvPrint (fun x => x) (fun x => x) wDocC6
      = tvLoop (fun x => x) (fun x => x) ["NHK"] [[]] 0 := by decide
    _ = (tvLoop (fun x => x) (fun x => x) ["NHK"] [] (0 + 1)).map
        (fun ls => ("NHK" ++ " 現在放送していません") :: ls) := h
    _ = Except.ok ["NHK 現在放送していません"] := by decide

/-- C9: in the snapshot view, a channel whose first current-tagged slot has
no nested title element contributes no output line at all — neither a title
line nor the fallback line. -/
theorem snapshot_untitled_current_silent (col unesc : String → String)
    (channels : List String) (ul : List Li) (rest : List (List Li)) (i : Nat) (cur : Li)
    (hcur : ul.find? (fun li => li.isCurrent) = some cur)
    (htitle : cur.title = none) :
    tvLoop col unesc channels (ul :: rest) i = tvLoop col unesc channels rest (i + 1) := by
  simp only [tvLoop, hcur, htitle]

/-- Witness for C9: a one-channel document whose current slot has no title
renders as no lines at all. -/
theorem snapshot_untitled_current_silent_witness :
    tvPrint (fun x => x) (fun x => x) wDocC9 = Except.ok [] := by
  have h := snapshot_untitled_current_silent (fun x => x) (fun x => x)
    ["X"] [wCurUntitled] [] 0 wCurUntitled rfl rfl
  calc tvPrint (fun x => x) (fun x => x) wDocC9
      = tvLoop (fun x => x) (fun x => x) ["X"] [[wCurUntitled]] 0 := by decide
    _ = tvLoop (fun x => x) (fun x => x) ["X"] [] (0 + 1) := h
    _ = Except.ok [] := by decide

/-- C7 counterexample: a document with two channel entries but only one
slot list renders successfully with best-effort output (the extra channel
silently ignored) — the count mismatch is not treated as a parse error. -/
theorem alignment_not_checked_cex :
    tvPrint (fun x => x) (fun x => x) wDocC7 = Except.ok ["A 現在放送していません"] := by
  decide

/-- C7 amended: no channel/slot-list count check exists.  With fewer (or
equally many) slot lists than channels, snapshot rendering always succeeds,
silently dropping the unmatched channels; with more slot lists than
channels, rendering aborts with an index-out-of-bounds panic as soon as an
unmatched slot list needs a channel name — an abort, not a parse error. -/
theorem alignment_mismatch_behavior :
    (∀ (col unesc : String → String) (channels : List String)
      (uls : List (List Li)) (i : Nat), i + uls.length ≤ channels.length →
      ∃ lines, tvLoop col unesc channels uls i = Except.ok lines) ∧
    (∀ (col unesc : String → String) (channels : List String) (ul : List Li)
      (uls : List (List Li)) (i : Nat), channels.length ≤ i →
      ul.find? (fun li => li.isCurrent) = none →
      tvLoop col unesc channels (ul :: uls) i = Except.error Panic.index) := by
  constructor
  · intro col unesc channels uls
    induction uls with
    | nil => exact fun i _ => ⟨[], rfl⟩
    | cons ul rest ih =>
      intro i hlen
      simp only [List.length_cons] at hlen
      have hi : i < channels.length := by omega
      obtain ⟨ls, hls⟩ := ih (i + 1) (by omega)
      cases hfind : ul.find? (fun li => li.isCurrent) with
      | none =>
        exact ⟨(channels.getD i "" ++ " 現在放送していません") :: ls,
          by simp [tvLoop, hfind, idxPanic_ok channels i hi, hls,
            except_bind_ok, except_bind_error]⟩
      | some cur =>
        cases htit : cur.title with
        | none => exact ⟨ls, by simp [tvLoop, hfind, htit, hls]⟩
        | some t =>
          exact ⟨(col (channels.getD i "") ++ " " ++ unesc t) :: ls,
            by simp [tvLoop, hfind, htit, idxPanic_ok channels i hi, hls,
              except_bind_ok, except_bind_error]⟩
  · intro col unesc channels ul uls i hlen hfind
    have hnone : channels[i]? = none := List.getElem?_eq_none hlen
    simp [tvLoop, hfind, idxPanic, hnone, except_bind_error]

/-- Witness for the amended C7: with two slot lists and two channels the
loop succeeds; with one slot list and zero channels it panics on the
index. -/
theorem alignment_mismatch_behavior_witness :
    (∃ lines, tvLoop (fun x => x) (fun x => x) ["A", "B"] [[], []] 0 = Except.ok lines) ∧
    tvLoop (fun x => x) (fun x => x) [] [[]] 0 = Except.error Panic.index :=
  ⟨alignment_mismatch_behavior.1 (fun x => x) (fun x => x) ["A", "B"] [[], []] 0 (by decide),
   alignment_mismatch_behavior.2 (fun x => x) (fun x => x) [] [] [] 0 (by decide) rfl⟩

/-- C4 counterexample: a FullDay document whose only future slot has valid
timestamp attributes but no nested title element renders successfully
(header only, slot silently skipped) — the program does not abort. -/
theorem missing_title_not_fatal_cex :
    todayTvPrint (fun x => x) (fun x => x) wDocC4 = Except.ok ["CH"] := by
  decide

/-- C4 amended: a slot lacking a start/end attribute is fatal (the unwrap
panics and the whole operation aborts) in both the day and the week
rendering; but a slot lacking a nested title element is not fatal — its
attributes are still read (and can still abort the operation if malformed),
after which the slot is silently skipped with no output line. -/
theorem slot_error_policy_amended :
    (∀ (unesc : String → String) (li : Li), li.s = none →
      renderTodaySlot unesc li = Except.error Panic.attr) ∧
    (∀ (unesc : String → String) (channels : List String) (i : Nat) (li : Li),
      li.s = none → renderWeekSlot unesc channels i li = Except.error Panic.attr) ∧
    (∀ (unesc : String → String) (li : Li), li.title = none →
      attrOk li.s = true → attrOk li.e = true →
      renderTodaySlot unesc li = Except.ok none) ∧
    (∀ (unesc : String → String) (channels : List String) (i : Nat) (li : Li)
      (s e : String) (sdt edt : LocalDT), li.title = none →
      li.s = some s → li.e = some e →
      parseYmdHm s = some sdt → parseYmdHm e = some edt →
      renderWeekSlot unesc channels i li = Except.ok none) := by
  refine ⟨?_, ?_, ?_, ?_⟩
  · intro unesc li hs
    simp [renderTodaySlot, hs, attrUnwrap, except_bind_error]
  · intro unesc channels i li hs
    simp [renderWeekSlot, hs, attrUnwrap, except_bind_error]
  · intro unesc li htit hs he
    match hsv : li.s, hev : li.e with
    | some s, some e =>
      rw [hsv] at hs
      rw [hev] at he
      simp only [attrOk, decide_eq_true_eq] at hs he
      have h1 : strSlice s 8 10 = some (chars s 8 10) := by
        simp [strSlice]; omega
      have h2 : strSlice s 10 12 = some (chars s 10 12) := by
        simp [strSlice]; omega
      have h3 : strSlice e 8 10 = some (chars e 8 10) := by
        simp [strSlice]; omega
      have h4 : strSlice e 10 12 = some (chars e 10 12) := by
        simp [strSlice]; omega
      simp [renderTodaySlot, hsv, hev, htit, attrUnwrap, sliceUnwrap, h1, h2, h3, h4,
        except_bind_ok, except_bind_error]
    | some s, none => rw [hev] at he; simp [attrOk] at he
    | none, _ => rw [hsv] at hs; simp [attrOk] at hs
  · intro unesc channels i li s e sdt edt htit hs he hps hpe
    simp [renderWeekSlot, hs, he, hps, hpe, htit, attrUnwrap, parseUnwrap,
      except_bind_ok, except_bind_error]

/-- Witness for the amended C4: a slot with no attributes panics with the
attribute unwrap in both renderers; a slot with valid attributes and no
title is skipped without error in both renderers. -/
theorem slot_error_policy_witness :
    renderTodaySlot (fun x => x) wSlotNoAttr = Except.error Panic.attr ∧
    renderWeekSlot (fun x => x) ["CH"] 0 wSlotNoAttr = Except.error Panic.attr ∧
    renderTodaySlot (fun x => x) wSlotNoTitle = Except.ok none ∧
    renderWeekSlot (fun x => x) ["CH"] 0 wSlotNoTitle = Except.ok none :=
  ⟨slot_error_policy_amended.1 (fun x => x) wSlotNoAttr rfl,
   slot_error_policy_amended.2.1 (fun x => x) ["CH"] 0 wSlotNoAttr rfl,
   slot_error_policy_amended.2.2.1 (fun x => x) wSlotNoTitle rfl (by decide) (by decide),
   slot_error_policy_amended.2.2.2 (fun x => x) ["CH"] 0 wSlotNoTitle
     "202401100930" "202401101000"
     { date := { year := 2024, month := 1, day := 10 }, hour := 9, minute := 30 }
     { date := { year := 2024, month := 1, day := 10 }, hour := 10, minute := 0 }
     rfl rfl rfl (by decide) (by decide)⟩

/-- C8 counterexample: in the FullDay rendering, a slot whose 12-character
start/end attributes are not digits at all raises no error — the rendering
succeeds and prints whatever characters occupy the hour/minute positions. -/
theorem fullday_no_timestamp_validation_cex :
    todayTvPrint (fun x => x) (fun x => x) wDocC8
      = Except.ok ["CH", "IJ:KL ~ ij:kl T"] := by
  decide

/-- C8 amended: only the Weekly rendering validates the 12-digit
YYYYMMDDHHmm format — an attribute the chrono parse rejects aborts the
whole operation there; the FullDay rendering performs no format
validation: it aborts exactly when the byte-indexed `str::get(8..10)` or
`str::get(10..12)` on an attribute returns None (the attribute has fewer
bytes than the range needs, or a range endpoint falls inside a multi-byte
character), and otherwise renders the bytes at positions 8..10 and 10..12
verbatim, digits or not. -/
theorem timestamp_error_policy_amended :
    (∀ (unesc : String → String) (channels : List String) (i : Nat) (li : Li)
      (s e : String), li.s = some s → li.e = some e → parseYmdHm s = none →
      renderWeekSlot unesc channels i li = Except.error Panic.parse) ∧
    (∀ (unesc : String → String) (channels : List String) (i : Nat) (li : Li)
      (s e : String) (sdt : LocalDT), li.s = some s → li.e = some e →
      parseYmdHm s = some sdt → parseYmdHm e = none →
      renderWeekSlot unesc channels i li = Except.error Panic.parse) ∧
    (∀ (unesc : String → String) (li : Li) (s e t sh sm eh em : String),
      li.s = some s → li.e = some e → li.title = some t →
      rustStrGet s 8 10 = some sh → rustStrGet s 10 12 = some sm →
      rustStrGet e 8 10 = some eh → rustStrGet e 10 12 = some em →
      renderTodaySlotBytes unesc li
        = Except.ok (some (sh ++ ":" ++ sm ++ " ~ " ++ eh ++ ":" ++ em ++ " " ++ unesc t))) ∧
    (∀ (unesc : String → String) (li : Li) (s : String),
      li.s = some s → rustStrGet s 8 10 = none →
      renderTodaySlotBytes unesc li = Except.error Panic.slice) ∧
    (∀ (unesc : String → String) (li : Li) (s sh : String),
      li.s = some s → rustStrGet s 8 10 = some sh → rustStrGet s 10 12 = none →
      renderTodaySlotBytes unesc li = Except.error Panic.slice) := by
  refine ⟨?_, ?_, ?_, ?_, ?_⟩
  · intro unesc channels i li s e hs he hps
    simp [renderWeekSlot, hs, he, hps, attrUnwrap, parseUnwrap,
      except_bind_ok, except_bind_error]
  · intro unesc channels i li s e sdt hs he hps hpe
    simp [renderWeekSlot, hs, he, hps, hpe, attrUnwrap, parseUnwrap,
      except_bind_ok, except_bind_error]
  · intro unesc li s e t sh sm eh em hs he htit h1 h2 h3 h4
    simp [renderTodaySlotBytes, hs, he, htit, attrUnwrap, sliceUnwrap, h1, h2, h3, h4,
      except_bind_ok, except_bind_error]
  · intro unesc li s hs h1
    simp [renderTodaySlotBytes, hs, attrUnwrap, sliceUnwrap, h1,
      except_bind_ok, except_bind_error]
  · intro unesc li s sh hs h1 h2
    simp [renderTodaySlotBytes, hs, attrUnwrap, sliceUnwrap, h1, h2,
      except_bind_ok, except_bind_error]

/-- Witness for the amended C8: the garbage-timestamp slot panics on the
chrono parse in the Weekly renderer (for a bad start and for a bad end);
in the byte-exact FullDay renderer, a six-character 12-byte attribute of
two-byte characters renders verbatim, a 12-character attribute with byte
position 8 inside a character panics on the slice, and a too-short
attribute panics on the slice. -/
theorem timestamp_error_policy_witness :
    renderWeekSlot (fun x => x) ["CH"] 0 wSlotGarbage = Except.error Panic.parse ∧
    renderWeekSlot (fun x => x) ["CH"] 0 wSlotBadEnd = Except.error Panic.parse ∧
    renderTodaySlotBytes (fun x => x) wSlotAlpha = Except.ok (some "α:α ~ α:α T") ∧
    renderTodaySlotBytes (fun x => x) wSlotMidChar = Except.error Panic.slice ∧
    renderTodaySlotBytes (fun x => x) wSlotShort = Except.error Panic.slice :=
  ⟨timestamp_error_policy_amended.1 (fun x => x) ["CH"] 0 wSlotGarbage
     "ABCDEFGHIJKL" "abcdefghijkl" rfl rfl (by decide),
   timestamp_error_policy_amended.2.1 (fun x => x) ["CH"] 0 wSlotBadEnd
     "202401100930" "ABCDEFGHIJKL"
     { date := { year := 2024, month := 1, day := 10 }, hour := 9, minute := 30 }
     rfl rfl (by decide) (by decide),
   (timestamp_error_policy_amended.2.2.1 (fun x => x) wSlotAlpha
     "αααααα" "αααααα" "T" "α" "α" "α" "α" rfl rfl rfl
     (by decide) (by decide) (by decide) (by decide)).trans (by decide),
   timestamp_error_policy_amended.2.2.2.1 (fun x => x) wSlotMidChar
     "1234567α1234" rfl (by decide),
   timestamp_error_policy_amended.2.2.2.1 (fun x => x) wSlotShort
     "2024" rfl (by decide)⟩

/-- C5: in the FullDay view, when channel and slot-list counts agree and
every future slot's attributes are long enough to slice, every channel gets
a header line with the (color-tagged) channel name even when it has no
future slots, and every titled future slot is rendered as one line
HH:MM ~ HH:MM title with the digits taken directly from character
positions 8-10 and 10-12 of the start and end attributes, with no
timezone conversion. -/
theorem todayTv_render_format (col unesc : String → String) (doc : EpgDoc)
    (hlen : doc.channelsRaw.length = doc.programArea.length)
    (hattr : ∀ ul ∈ doc.programArea, ∀ li ∈ ul, li.isFuture = true →
      attrOk li.s = true ∧ attrOk li.e = true) :
    todayTvPrint col unesc doc = Except.ok (todaySpecRender col unesc doc) := by
  unfold todayTvPrint todaySpecRender
  have hlen2 : 0 + doc.programArea.length = (docChannels doc).length := by
    simp [docChannels, hlen]
  rw [todayLoop_ok col unesc (docChannels doc) doc.programArea 0 hlen2 hattr]
  simp [List.drop_zero]

/-- Witness for C5: the golden example — a channel " News Ch " (trimmed)
with slot start=202401100930, end=202401101000, title News, renders as the
header line and the line 09:30 ~ 10:00 News. -/
theorem todayTv_render_format_witness :
    todayTvPrint (fun x => x) (fun x => x) wDocC5
      = Except.ok ["News Ch", "09:30 ~ 10:00 News"] := by
  have h := todayTv_render_format (fun x => x) (fun x => x) wDocC5 (by decide) (by decide)
  exact h.trans (by decide)
